import Mathlib

set_option maxRecDepth 4000

/-!
Shallow embedding of the EvoRAG pipeline (ingestion.py, rag_service.py,
llm_judge.py) and proofs about its specified behaviour.

External collaborators (the uuid library's uuid5, hashlib's md5, the
embedding service, the vector store, the generative-model service and the
json parser) are modelled as abstract function parameters or explicit
outcome values; the repository's own control flow and string processing
are translated directly from the Python source.

Python string primitives (str.split, str.strip, str.lstrip, substring
split and containment) are re-implemented over `List Char` so that all
definitions reduce structurally in the kernel.  Lean's `Char.isWhitespace`
stands in for Python's whitespace class (the strings handled by the
pipeline only use spaces and newlines).
-/

/-- Flush a reversed accumulator of characters into at most one word. -/
def flushAcc (acc : List Char) : List String :=
  if acc.isEmpty then [] else [⟨acc.reverse⟩]

/-- Worker for Python's whitespace `str.split()`: runs of whitespace
separate words, leading/trailing whitespace produces no empty words. -/
def pySplitAux : List Char → List Char → List String
  | [], acc => flushAcc acc
  | c :: cs, acc =>
    if c.isWhitespace then flushAcc acc ++ pySplitAux cs []
    else pySplitAux cs (c :: acc)

/-- Python's `text.split()` (no separator argument). -/
def pyWords (s : String) : List String :=
  pySplitAux s.data []

/-- `len(text.split())`, the word count used throughout ingestion.py. -/
def countWords (s : String) : Nat :=
  (pyWords s).length

/-- Drop leading whitespace characters. -/
def dropLeadWs : List Char → List Char
  | [] => []
  | c :: cs => if c.isWhitespace then dropLeadWs cs else c :: cs

/-- Python's `text.strip()`: remove leading and trailing whitespace. -/
def pyStrip (s : String) : String :=
  ⟨(dropLeadWs (dropLeadWs s.data).reverse).reverse⟩

/-- Drop leading characters that belong to a given character set
(Python's `str.lstrip(chars)`). -/
def stripLeadSet (chars : List Char) : List Char → List Char
  | [] => []
  | c :: cs => if chars.contains c then stripLeadSet chars cs else c :: cs

/-- The character list of `' '.join(ws)`. -/
def joinWordsData : List String → List Char
  | [] => []
  | [w] => w.data
  | w :: ws => w.data ++ ' ' :: joinWordsData ws

/-- Python's `' '.join(ws)`. -/
def joinWords (ws : List String) : String :=
  ⟨joinWordsData ws⟩

/-- Python's substring containment `sep in s`, over character lists. -/
def containsSeq (sep : List Char) : List Char → Bool
  | [] => sep.isEmpty
  | c :: cs => List.isPrefixOf sep (c :: cs) || containsSeq sep cs

/-- Worker for Python's `s.split(sep)` with a non-empty separator.  The
`skip` counter walks over the characters of a separator occurrence that
has just been matched, so occurrences never overlap (as in Python). -/
def splitOnGo (sep : List Char) : List Char → Nat → List Char → List (List Char)
  | [], _, acc => [acc.reverse]
  | _ :: cs, Nat.succ k, acc => splitOnGo sep cs k acc
  | c :: cs, 0, acc =>
    if List.isPrefixOf sep (c :: cs) then
      acc.reverse :: splitOnGo sep cs (sep.length - 1) []
    else
      splitOnGo sep cs 0 (c :: acc)

/-- Python's `s.split(sep)` for a non-empty separator string. -/
def pySplitOnStr (sep s : String) : List String :=
  (splitOnGo sep.data s.data 0 []).map (fun l => ⟨l⟩)

/-! ## ingestion.py: configuration, chunk identity and semantic chunking -/

/-- The module-level configuration constants of ingestion.py:
`MAX_CHUNK_WORDS`, `MIN_CHUNK_WORDS` and the boolean toggle that enables
the Source/Section contextual header on stored chunk text. -/
structure Config where
  maxChunkWords : Nat
  minChunkWords : Nat
  addSourceHeader : Bool
deriving Repr, DecidableEq

/-- The defaults in ingestion.py: 500, 5, False. -/
def defaultConfig : Config := ⟨500, 5, false⟩

/-- The fixed DNS namespace UUID used as `uuid.NAMESPACE_DNS`. -/
def NAMESPACE_DNS : String := "6ba7b810-9dad-11d1-80b4-00c04fd430c8"

/-- `IngestionPipeline._generate_deterministic_id`: derives a namespace
UUID from the source via uuid5, then a deterministic UUID from the
namespace and the f-string joining chunk_index and text_hash with "::".
The external `uuid.uuid5` primitive is abstracted as the parameter `u`. -/
def generate_deterministic_id (u : String → String → String)
    (source : String) (chunk_index : Nat) (text_hash : String) : String :=
  let ns := u NAMESPACE_DNS source
  let unique_string := toString chunk_index ++ "::" ++ text_hash
  u ns unique_string

/-- `IngestionPipeline._split_large_chunk`'s greedy packing loop: append
words to the current chunk and flush whenever its length reaches
`maxWords`; any remaining words form a final chunk. -/
def greedyPackAux (maxWords : Nat) : List String → List String → List String
  | [], current => if current.isEmpty then [] else [joinWords current.reverse]
  | w :: ws, current =>
    let cur := w :: current
    if maxWords ≤ cur.length then
      joinWords cur.reverse :: greedyPackAux maxWords ws []
    else
      greedyPackAux maxWords ws cur

/-- `IngestionPipeline._split_large_chunk`: texts at or below the word
bound are returned whole; larger texts are split by greedy packing. -/
def split_large_chunk (text : String) (max_words : Nat) : List String :=
  let words := pyWords text
  if words.length ≤ max_words then [text]
  else greedyPackAux max_words words []

/-- The typed element stream produced by the external document converter:
section headers, text items, list items, and anything else (tables,
pictures, ...) which the chunker skips. -/
inductive DocElement
  | sectionHeaderItem (text : String)
  | textItem (text : String) (page : Option Nat)
  | listItem (text : String) (page : Option Nat)
  | otherItem
deriving Repr, DecidableEq

/-- A chunk record as built by `create_semantic_chunks_from_docs` (the
metadata dict is flattened into fields). -/
structure Chunk where
  id : String
  text : String
  source : String
  page : Option Nat
  heading : String
  chunk_index : Nat
deriving Repr, DecidableEq

/-- The inner loop over the sub-chunks of one element: attach the
contextual header if enabled, hash the raw sub-chunk text (md5 hex digest
truncated to 16 characters, abstracted as `m`), derive the deterministic
id, and emit one chunk per sub-chunk while advancing `chunk_index`. -/
def processSubChunks (cfg : Config) (u : String → String → String)
    (m : String → String) (src heading : String) (page : Option Nat) :
    List String → Nat → List Chunk × Nat
  | [], idx => ([], idx)
  | sub :: rest, idx =>
    let contextual_text :=
      if cfg.addSourceHeader then
        "Source: " ++ src ++ "\nSection: " ++ heading ++ "\n\n" ++ sub
      else sub
    let text_hash := m sub
    let chunk_id := generate_deterministic_id u src idx text_hash
    let p := processSubChunks cfg u m src heading page rest (idx + 1)
    (⟨chunk_id, contextual_text, src, page, heading, idx⟩ :: p.1, p.2)

/-- Handling of one text-bearing element (TextItem or ListItem): strip,
drop empty or too-short text, split oversized text, emit sub-chunks. -/
def chunkTextElement (cfg : Config) (u : String → String → String)
    (m : String → String) (src heading : String) (page : Option Nat)
    (t : String) (idx : Nat) : List Chunk × Nat :=
  let text := pyStrip t
  let word_count := countWords text
  if text = "" ∨ word_count < cfg.minChunkWords then ([], idx)
  else
    let text_chunks := split_large_chunk text cfg.maxChunkWords
    processSubChunks cfg u m src heading page text_chunks idx

/-- The element loop of `create_semantic_chunks_from_docs`: headers
update the current heading and produce no chunk, non-text elements are
skipped, text-bearing elements are chunked. -/
def chunksFromElems (cfg : Config) (u : String → String → String)
    (m : String → String) (src : String) :
    List DocElement → String → Nat → List Chunk
  | [], _, _ => []
  | DocElement.sectionHeaderItem t :: rest, _, idx =>
    chunksFromElems cfg u m src rest (pyStrip t) idx
  | DocElement.textItem t page :: rest, heading, idx =>
    let p := chunkTextElement cfg u m src heading page t idx
    p.1 ++ chunksFromElems cfg u m src rest heading p.2
  | DocElement.listItem t page :: rest, heading, idx =>
    let p := chunkTextElement cfg u m src heading page t idx
    p.1 ++ chunksFromElems cfg u m src rest heading p.2
  | DocElement.otherItem :: rest, heading, idx =>
    chunksFromElems cfg u m src rest heading idx

/-- `IngestionPipeline.create_semantic_chunks_from_docs`: the heading
starts as "Introduction" and the chunk index at 0. -/
def create_semantic_chunks_from_docs (cfg : Config)
    (u : String → String → String) (m : String → String)
    (doc : List DocElement) (source_filepath : String) : List Chunk :=
  chunksFromElems cfg u m source_filepath doc "Introduction" 0

/-! ## rag_service.py: query rewriting, retrieval, synthesis, ask -/

/-- The observable outcome of the rewrite model call composed with
`json.loads` in `RAGService.rewrite_query`: either some step raised (the
model call failed, the response was not valid JSON, or was not an
object), or a JSON object was obtained, modelled as a string-to-string
association list. -/
inductive RewriteOutcome
  | fail (e : String)
  | parsed (d : List (String × String))

/-- `RAGService.rewrite_query`: on success, `dict.get("rewritten_query",
query)` with fallback to the original query; on any exception, the
original query. -/
def rewrite_query (query : String) (o : RewriteOutcome) : String :=
  match o with
  | RewriteOutcome.fail _ => query
  | RewriteOutcome.parsed d => (d.lookup "rewritten_query").getD query

/-- True exactly when rewrite_query falls back: the call raised, or the
loaded object carries no "rewritten_query" key. -/
def rewriteFailed : RewriteOutcome → Bool
  | RewriteOutcome.fail _ => true
  | RewriteOutcome.parsed d => (d.lookup "rewritten_query").isNone

/-- One ranked hit returned by the vector-store search, reduced to the
payload fields `retrieve_context` reads. -/
structure SearchHit where
  source : String
  text : String
deriving Repr, DecidableEq

/-- The context-string accumulation loop of `RAGService.retrieve_context`. -/
def buildContext : List SearchHit → String
  | [] => ""
  | h :: hs => "[Source: " ++ h.source ++ "]\n" ++ h.text ++ "\n---\n" ++ buildContext hs

/-- Worker deduplicating source names (first occurrence kept). -/
def dedupSourcesAux : List String → List String → List String
  | [], _ => []
  | s :: ss, seen =>
    if seen.contains s then dedupSourcesAux ss seen
    else s :: dedupSourcesAux ss (s :: seen)

/-- `list(retrieved_sources)` where `retrieved_sources` is the set of hit
sources.  Python's set iteration order is unspecified; the model
determinizes it to first-occurrence order (no claim depends on order). -/
def dedupSources (hits : List SearchHit) : List String :=
  dedupSourcesAux (hits.map SearchHit.source) []

/-- The `{context, sources}` dictionary returned by retrieve_context. -/
structure Retrieval where
  context : String
  sources : List String
deriving Repr, DecidableEq

/-- The pure tail of `RAGService.retrieve_context`, applied to the hits
returned by the vector-store search. -/
def retrieve_context (hits : List SearchHit) : Retrieval :=
  ⟨buildContext hits, dedupSources hits⟩

/-- The fixed answer returned on empty context. -/
def noInfoAnswer : String :=
  "I could not find any relevant information in the provided documents to answer your question."

/-- The citation-block delimiter searched for in the synthesized text. -/
def citSep : String := "\nCitations:"

/-- The character set stripped by `lstrip('- ')`. -/
def dashSpace : List Char := ['-', ' ']

/-- The per-line citation parser: Python's list comprehension
`[line.strip().lstrip('- ').strip() for line in citations_text.split('\n')
if line.strip()]`. -/
def parseCitedLines (citations_text : String) : List String :=
  (pySplitOnStr "\n" citations_text).filterMap
    (fun line =>
      if pyStrip line = "" then none
      else some (pyStrip ⟨stripLeadSet dashSpace (pyStrip line).data⟩))

/-- The response-splitting logic of `RAGService.generate_answer`: if the
text contains "\nCitations:", parts[0] stripped is the answer and
parts[1] stripped is parsed line by line; otherwise the whole stripped
text is the answer with no citations. -/
def parseSynthesis (full_text : String) : String × List String :=
  if containsSeq citSep.data full_text.data then
    let parts := pySplitOnStr citSep full_text
    (pyStrip (parts.getD 0 ""), parseCitedLines (pyStrip (parts.getD 1 "")))
  else (pyStrip full_text, [])

/-- The result of generate_answer, instrumented with the list of prompts
actually sent to the generative model so that non-invocation is provable. -/
structure GenOut where
  answer : String
  cited_docs : List String
  llm_calls : List String
deriving Repr, DecidableEq

/-- `RAGService.generate_answer`.  `tpl` is the loaded answer-synthesis
template applied as `template.format(context=..., query=...)`; `llm` is
the generative-model call, which may raise (`Except.error`).  The empty
context check precedes the model call; the try/except converts a raised
synthesis error into an inline error answer with no citations. -/
def generate_answer (tpl : String → String → String)
    (llm : String → Except String String) (query context : String) : GenOut :=
  let prompt := tpl context query
  if context = "" then ⟨noInfoAnswer, [], []⟩
  else
    match llm prompt with
    | Except.error e =>
      ⟨"An error occurred while generating the answer: " ++ e, [], [prompt]⟩
    | Except.ok full_text =>
      ⟨(parseSynthesis full_text).1, (parseSynthesis full_text).2, [prompt]⟩

/-- The structured dictionary returned by `RAGService.ask`. -/
structure AskResult where
  original_query : String
  rewritten_query : String
  context : String
  answer : String
  cited_docs : List String
  referenced_docs : List String
deriving Repr, DecidableEq

/-- The three effectful collaborators of one `ask` call: the rewrite
model+parse outcome, the retrieval step (query embedding plus vector
search, which `retrieve_context` does NOT guard with try/except, so it
may raise), and the synthesis model call. -/
structure AskOracles where
  rewriteOutcome : RewriteOutcome
  search : String → Except String (List SearchHit)
  synth : String → Except String String

/-- `RAGService.ask`: rewrite, retrieve with the rewritten query,
synthesize with the ORIGINAL query, and assemble the result dictionary.
A raised retrieval error propagates (`Except.error`). -/
def ask (tpl : String → String → String) (query : String) (o : AskOracles) :
    Except String AskResult :=
  let rewritten := rewrite_query query o.rewriteOutcome
  match o.search rewritten with
  | Except.error e => Except.error e
  | Except.ok hits =>
    let r := retrieve_context hits
    let g := generate_answer tpl o.synth query r.context
    Except.ok ⟨query, rewritten, r.context, g.answer, g.cited_docs, r.sources⟩

/-! ## ingestion.py: process_document and delete_document with effects -/

/-- Abstract embedding vectors (their contents are never inspected). -/
def Vec := List Int

/-- A point upserted to the vector store: id, vector, and the payload
(metadata dict plus the stored text). -/
structure QPoint where
  id : String
  vector : Vec
  source : String
  page : Option Nat
  heading : String
  chunk_index : Nat
  text : String

/-- `PointStruct` construction loop of `process_document` step 4. -/
def buildPoints (chunks : List Chunk) (embeddings : List Vec) : List QPoint :=
  (chunks.zip embeddings).map
    (fun p => ⟨p.1.id, p.2, p.1.source, p.1.page, p.1.heading, p.1.chunk_index, p.1.text⟩)

/-- The reported outcome of one `process_document` call. -/
inductive IngestOutcome
  | fileNotFound
  | noChunks
  | success (chunkCount : Nat)
  | raised (e : String)

/-- Result of `process_document`, instrumented with the embedding-service
calls and the vector-store upsert calls actually issued. -/
structure ProcOut where
  outcome : IngestOutcome
  embedCalls : List (List String)
  upsertCalls : List (List QPoint)

/-- `IngestionPipeline.process_document`: file-existence check, convert
(may raise: re-raised), chunk, abort without mutation when no chunks,
embed (may raise: re-raised), build points, upsert (may raise:
re-raised). -/
def process_document (cfg : Config) (u : String → String → String)
    (m : String → String) (fileExists : Bool)
    (convert : Except String (List DocElement))
    (embed : List String → Except String (List Vec))
    (upsertCall : List QPoint → Except String Unit)
    (filename : String) : ProcOut :=
  if fileExists = false then ⟨IngestOutcome.fileNotFound, [], []⟩
  else
    match convert with
    | Except.error e => ⟨IngestOutcome.raised e, [], []⟩
    | Except.ok doc =>
      let chunks := create_semantic_chunks_from_docs cfg u m doc filename
      if chunks.isEmpty then ⟨IngestOutcome.noChunks, [], []⟩
      else
        let texts := chunks.map Chunk.text
        match embed texts with
        | Except.error e => ⟨IngestOutcome.raised e, [texts], []⟩
        | Except.ok vecs =>
          let points := buildPoints chunks vecs
          match upsertCall points with
          | Except.error e => ⟨IngestOutcome.raised e, [texts], [points]⟩
          | Except.ok _ => ⟨IngestOutcome.success chunks.length, [texts], [points]⟩

/-- A stored point as seen by delete_document (only the source payload
field matters to the scroll filter and the delete filter). -/
structure PointRec where
  id : String
  source : String
deriving Repr, DecidableEq

/-- The field filter `FieldCondition(key="source", match=MatchValue(...))`. -/
structure SourceFilter where
  source : String
deriving Repr, DecidableEq

/-- Vector-store semantics of the source filter. -/
def matchesFilter (f : SourceFilter) (p : PointRec) : Bool :=
  p.source == f.source

/-- Vector-store semantics of a delete call: points matching the filter
are removed, all others are untouched. -/
def applyDelete (coll : List PointRec) (f : SourceFilter) : List PointRec :=
  coll.filter (fun p => !(matchesFilter f p))

/-- The scroll probe: points whose source matches, truncated to `limit`. -/
def scrollProbe (coll : List PointRec) (src : String) (limit : Nat) : List PointRec :=
  (coll.filter (fun p => p.source == src)).take limit

/-- Result of `delete_document`: collection state after the call, the
delete calls issued (by their filters), and whether a delete happened. -/
structure DeleteOut where
  collection : List PointRec
  deleteCalls : List SourceFilter
  deleted : Bool
deriving Repr, DecidableEq

/-- `IngestionPipeline.delete_document`: scroll with a source filter and
limit 1; if no point comes back, return without deleting; otherwise issue
one delete call filtered on the same source field. -/
def delete_document (coll : List PointRec) (src : String) : DeleteOut :=
  if (scrollProbe coll src 1).isEmpty then ⟨coll, [], false⟩
  else ⟨applyDelete coll ⟨src⟩, [⟨src⟩], true⟩

/-! ## llm_judge.py: judge_answer -/

/-- A minimal JSON value type for what `json.loads` returns and what the
judge hands back. -/
inductive JVal
  | jnull
  | jstr (s : String)
  | jnum (n : Int)
  | jarr (xs : List JVal)
  | jobj (fields : List (String × JVal))

/-- The observable outcome of the judge-model call composed with
`json.loads` in `LLMJudge.judge_answer`: the call raised, the response
text was not valid JSON, or a JSON value was parsed. -/
inductive JudgeCallOutcome
  | raised (e : String)
  | unparseable (e : String)
  | parsed (v : JVal)

/-- The sentinel evaluation built in the except branch of judge_answer. -/
def judgeSentinel (e : String) : JVal :=
  JVal.jobj
    [("error", JVal.jstr e),
     ("query_evaluation", JVal.jobj
       [("reasoning", JVal.jstr "Failed to generate evaluation due to an API error."),
        ("score", JVal.jnum 0),
        ("identified_issue", JVal.jstr "JUDGE_FAILURE")]),
     ("answer_evaluation", JVal.jobj
       [("reasoning", JVal.jstr "Failed to generate evaluation due to an API error."),
        ("relevance_score", JVal.jnum 0),
        ("correctness_score", JVal.jnum 0),
        ("completeness_score", JVal.jnum 0),
        ("identified_issue", JVal.jstr "JUDGE_FAILURE")])]

/-- `LLMJudge.judge_answer`: a parsed response is returned as-is; any
exception from the call or from json.loads yields the sentinel.  The
function is total: it never raises. -/
def judge_answer : JudgeCallOutcome → JVal
  | JudgeCallOutcome.parsed v => v
  | JudgeCallOutcome.raised e => judgeSentinel e
  | JudgeCallOutcome.unparseable e => judgeSentinel e

/-- Field lookup on a JSON object. -/
def jget : JVal → String → Option JVal
  | JVal.jobj fs, k => fs.lookup k
  | _, _ => none

/-- Two-level field lookup. -/
def jget2 (v : JVal) (k₁ k₂ : String) : Option JVal :=
  match jget v k₁ with
  | some w => jget w k₂
  | none => none

/-! ## Theorems -/

/-- C1: the chunk-identity derivation (generate_deterministic_id applied
to the source name, the chunk index, and the md5-derived hash of the
content text) is a pure function: two invocations with equal inputs
return the same identifier string, for any deterministic uuid5 and md5
primitives. -/
theorem deterministic_id_pure (u : String → String → String)
    (m : String → String) (s₁ s₂ : String) (i₁ i₂ : Nat) (t₁ t₂ : String)
    (hs : s₁ = s₂) (hi : i₁ = i₂) (ht : t₁ = t₂) :
    generate_deterministic_id u s₁ i₁ (m t₁)
      = generate_deterministic_id u s₂ i₂ (m t₂) := by
  subst hs; subst hi; subst ht; rfl

/-- Witness for C1 at concrete inputs. -/
theorem deterministic_id_pure_witness :
    generate_deterministic_id (fun a b => a ++ "|" ++ b) "doc.pdf" 3
        ((fun t => t ++ "#") "some chunk text")
      = generate_deterministic_id (fun a b => a ++ "|" ++ b) "doc.pdf" 3
        ((fun t => t ++ "#") "some chunk text") :=
  deterministic_id_pure (fun a b => a ++ "|" ++ b) (fun t => t ++ "#")
    "doc.pdf" "doc.pdf" 3 3 "some chunk text" "some chunk text" rfl rfl rfl

/-- C2 counterexample: `ask` DOES raise to its caller when the retrieval
step fails — retrieve_context is not wrapped in try/except, so a search
or query-embedding exception propagates out of ask. -/
theorem ask_error_on_retrieval_failure :
    ask (fun c q => c ++ q) "q"
        ⟨RewriteOutcome.fail "x", fun _ => Except.error "retrieval down",
         fun _ => Except.ok "a"⟩
      = Except.error "retrieval down" := rfl

/-- C2 amended: whenever the retrieval step succeeds, `ask` returns a
well-formed result object with all six fields and never raises, even
when the rewrite outcome is a failure and the synthesis call raises
(both are caught and degraded); only a retrieval failure propagates. -/
theorem ask_wellformed_when_retrieval_ok (tpl : String → String → String)
    (q : String) (o : AskOracles) (hits : List SearchHit)
    (h : o.search (rewrite_query q o.rewriteOutcome) = Except.ok hits) :
    ask tpl q o = Except.ok
      ⟨q, rewrite_query q o.rewriteOutcome, buildContext hits,
        (generate_answer tpl o.synth q (buildContext hits)).answer,
        (generate_answer tpl o.synth q (buildContext hits)).cited_docs,
        dedupSources hits⟩ := by
  simp only [ask, retrieve_context, h]

/-- Witness for C2 amended: failing rewrite, failing synthesis, and a
successful retrieval still produce a well-formed ok result. -/
theorem ask_wellformed_when_retrieval_ok_witness :
    ask (fun c q => c ++ q) "q"
        ⟨RewriteOutcome.fail "x", fun _ => Except.ok [⟨"a.pdf", "t"⟩],
         fun _ => Except.error "boom"⟩
      = Except.ok ⟨"q", "q", "[Source: a.pdf]\nt\n---\n",
          "An error occurred while generating the answer: boom", [], ["a.pdf"]⟩ := by
  have h := ask_wellformed_when_retrieval_ok (fun c q => c ++ q) "q"
    ⟨RewriteOutcome.fail "x", fun _ => Except.ok [⟨"a.pdf", "t"⟩],
     fun _ => Except.error "boom"⟩ [⟨"a.pdf", "t"⟩] rfl
  simpa using h

/-- C4: when retrieval produces an empty context string, generate_answer
never invokes the generative model (its instrumented call list is empty)
and returns the fixed no-relevant-information answer with an empty
cited_docs list; hence ask on a query whose search returns zero hits
returns that fixed answer with empty citations. -/
theorem empty_context_short_circuit :
    (∀ (tpl : String → String → String) (llm : String → Except String String)
       (q : String), generate_answer tpl llm q "" = ⟨noInfoAnswer, [], []⟩) ∧
    (∀ (tpl : String → String → String) (q : String) (ro : RewriteOutcome)
       (syn : String → Except String String),
       ask tpl q ⟨ro, fun _ => Except.ok [], syn⟩
         = Except.ok ⟨q, rewrite_query q ro, "", noInfoAnswer, [], []⟩) := by
  constructor
  · intro tpl llm q; rfl
  · intro tpl q ro syn; rfl

/-- C5: when the rewrite call raises, or its parsed response carries no
rewritten query, ask proceeds with the original query text unchanged as
the retrieval query (the search oracle is invoked at the original query)
and the returned rewritten_query field equals the original query. -/
theorem rewrite_fallback (q : String) (o : RewriteOutcome)
    (hfail : rewriteFailed o = true) :
    rewrite_query q o = q ∧
    ∀ (tpl : String → String → String)
      (search : String → Except String (List SearchHit))
      (syn : String → Except String String) (hits : List SearchHit),
      search q = Except.ok hits →
      ∃ r : AskResult, ask tpl q ⟨o, search, syn⟩ = Except.ok r ∧
        r.rewritten_query = q ∧ r.original_query = q := by
  have hq : rewrite_query q o = q := by
    cases o with
    | fail e => rfl
    | parsed d =>
      simp only [rewriteFailed, Option.isNone_iff_eq_none] at hfail
      simp [rewrite_query, hfail]
  refine ⟨hq, ?_⟩
  intro tpl search syn hits hs
  refine ⟨⟨q, q, buildContext hits,
    (generate_answer tpl syn q (buildContext hits)).answer,
    (generate_answer tpl syn q (buildContext hits)).cited_docs,
    dedupSources hits⟩, ?_, rfl, rfl⟩
  simp only [ask, retrieve_context, hq, hs]

/-- Witness for C5 at a concrete failing rewrite outcome. -/
theorem rewrite_fallback_witness :
    rewrite_query "what" (RewriteOutcome.parsed [("other_key", "v")]) = "what" ∧
    ∃ r : AskResult,
      ask (fun c q => c ++ q) "what"
          ⟨RewriteOutcome.parsed [("other_key", "v")], fun _ => Except.ok [],
           fun _ => Except.ok "a"⟩
        = Except.ok r ∧ r.rewritten_query = "what" ∧ r.original_query = "what" := by
  have h := rewrite_fallback "what" (RewriteOutcome.parsed [("other_key", "v")])
    (by decide)
  exact ⟨h.1, h.2 (fun c q => c ++ q) (fun _ => Except.ok [])
    (fun _ => Except.ok "a") [] rfl⟩

/-- C7: when chunking a converted document yields zero chunks,
process_document reports the non-fatal noChunks outcome (not a raised
exception) and performs no vector-store mutation: no embedding-service
call and no upsert call is issued. -/
theorem no_chunks_no_mutation (cfg : Config) (u : String → String → String)
    (m : String → String) (doc : List DocElement)
    (embed : List String → Except String (List Vec))
    (upsertCall : List QPoint → Except String Unit) (fn : String)
    (h : create_semantic_chunks_from_docs cfg u m doc fn = []) :
    process_document cfg u m true (Except.ok doc) embed upsertCall fn
      = ⟨IngestOutcome.noChunks, [], []⟩ := by
  simp [process_document, h]

/-- Witness for C7: a document whose only text element is below the
minimum word count produces no chunks and no mutation. -/
theorem no_chunks_no_mutation_witness :
    process_document defaultConfig (fun a b => a ++ b) (fun t => t) true
        (Except.ok [DocElement.textItem "too short" none])
        (fun _ => Except.error "embedding must not be called")
        (fun _ => Except.error "upsert must not be called") "doc.pdf"
      = ⟨IngestOutcome.noChunks, [], []⟩ :=
  no_chunks_no_mutation defaultConfig (fun a b => a ++ b) (fun t => t)
    [DocElement.textItem "too short" none]
    (fun _ => Except.error "embedding must not be called")
    (fun _ => Except.error "upsert must not be called") "doc.pdf" rfl

/-- C8: if the existence probe (scroll filtered on the source field,
limit 1) returns no points, delete_document is a no-op: it issues no
delete call and the collection is unchanged; otherwise it issues exactly
one delete call whose filter matches exactly the points carrying that
source field, and the collection keeps exactly the non-matching points. -/
theorem delete_document_probe_semantics (coll : List PointRec) (src : String) :
    ((∀ p ∈ coll, (p.source == src) = false) →
      delete_document coll src = ⟨coll, [], false⟩) ∧
    ((∃ p ∈ coll, (p.source == src) = true) →
      (delete_document coll src).deleteCalls = [⟨src⟩] ∧
      (delete_document coll src).collection = applyDelete coll ⟨src⟩ ∧
      ∀ p : PointRec, matchesFilter ⟨src⟩ p = (p.source == src)) := by
  constructor
  · intro hnone
    have hfil : coll.filter (fun p => p.source == src) = [] := by
      rw [List.filter_eq_nil_iff]
      intro p hp
      simp [hnone p hp]
    unfold delete_document scrollProbe
    rw [hfil]
    rfl
  · intro ⟨p, hp, hmatch⟩
    have hfil : (coll.filter (fun p => p.source == src)) ≠ [] := by
      intro hnil
      have := List.filter_eq_nil_iff.mp hnil p hp
      simp [hmatch] at this
    have hprobe : (scrollProbe coll src 1).isEmpty = false := by
      unfold scrollProbe
      cases hc : coll.filter (fun p => p.source == src) with
      | nil => exact absurd hc hfil
      | cons a as => rfl
    unfold delete_document
    rw [hprobe]
    exact ⟨rfl, rfl, fun _ => rfl⟩

/-- Witness for C8: a collection without the source is untouched with no
delete call; a collection with the source gets exactly one delete call
filtered on that source. -/
theorem delete_document_probe_semantics_witness :
    delete_document [⟨"1", "a.pdf"⟩] "b.pdf" = ⟨[⟨"1", "a.pdf"⟩], [], false⟩ ∧
    ((delete_document [⟨"1", "a.pdf"⟩, ⟨"2", "b.pdf"⟩] "a.pdf").deleteCalls
        = [⟨"a.pdf"⟩] ∧
      (delete_document [⟨"1", "a.pdf"⟩, ⟨"2", "b.pdf"⟩] "a.pdf").collection
        = applyDelete [⟨"1", "a.pdf"⟩, ⟨"2", "b.pdf"⟩] ⟨"a.pdf"⟩ ∧
      ∀ p : PointRec, matchesFilter ⟨"a.pdf"⟩ p = (p.source == "a.pdf")) :=
  ⟨(delete_document_probe_semantics [⟨"1", "a.pdf"⟩] "b.pdf").1 (by decide),
   (delete_document_probe_semantics [⟨"1", "a.pdf"⟩, ⟨"2", "b.pdf"⟩] "a.pdf").2
     (by decide)⟩

/-- C9: when the judge-model call raises, or its response cannot be
parsed as JSON, judge_answer returns (it is total, never raising) the
sentinel evaluation whose query-rewrite score and all three answer
scores are zero and whose two identified_issue tags both carry the
judge-failure value "JUDGE_FAILURE". -/
theorem judge_failure_sentinel (e : String) :
    (judge_answer (JudgeCallOutcome.raised e) = judgeSentinel e ∧
     judge_answer (JudgeCallOutcome.unparseable e) = judgeSentinel e) ∧
    jget2 (judgeSentinel e) "query_evaluation" "score" = some (JVal.jnum 0) ∧
    jget2 (judgeSentinel e) "query_evaluation" "identified_issue"
      = some (JVal.jstr "JUDGE_FAILURE") ∧
    jget2 (judgeSentinel e) "answer_evaluation" "relevance_score"
      = some (JVal.jnum 0) ∧
    jget2 (judgeSentinel e) "answer_evaluation" "correctness_score"
      = some (JVal.jnum 0) ∧
    jget2 (judgeSentinel e) "answer_evaluation" "completeness_score"
      = some (JVal.jnum 0) ∧
    jget2 (judgeSentinel e) "answer_evaluation" "identified_issue"
      = some (JVal.jstr "JUDGE_FAILURE") :=
  ⟨⟨rfl, rfl⟩, rfl, rfl, rfl, rfl, rfl, rfl⟩

/-- Reduction of generate_answer when the context is non-empty and the
model call returns text: the parsing of parseSynthesis applies and
exactly one model call is made. -/
theorem generate_answer_ok_reduce (tpl : String → String → String)
    (q ctx t : String) (hctx : ¬ ctx = "") :
    generate_answer tpl (fun _ => Except.ok t) q ctx
      = ⟨(parseSynthesis t).1, (parseSynthesis t).2, [tpl ctx q]⟩ := by
  simp [generate_answer, hctx]

/-- Without the citations delimiter, the whole stripped text is the
answer and there are no citations. -/
theorem parseSynthesis_no_delim (t : String)
    (h : containsSeq citSep.data t.data = false) :
    parseSynthesis t = (pyStrip t, []) := by
  simp [parseSynthesis, h]

/-- C6: for a synthesized response whose text is an answer line followed
by the delimiter "\nCitations:" and the bullet lines "- doc_a.pdf" and
"- doc_b.pdf", generate_answer returns the answer text without the
citations block and cited_docs equal to ["doc_a.pdf", "doc_b.pdf"]; and
for any response text without the delimiter, the whole stripped text is
the answer and cited_docs is empty. -/
theorem citation_parsing (tpl : String → String → String) (q ctx : String)
    (hctx : ¬ ctx = "") :
    ((generate_answer tpl
        (fun _ => Except.ok
          "The capital of France is Paris.\nCitations:\n- doc_a.pdf\n- doc_b.pdf")
        q ctx).answer = "The capital of France is Paris." ∧
     (generate_answer tpl
        (fun _ => Except.ok
          "The capital of France is Paris.\nCitations:\n- doc_a.pdf\n- doc_b.pdf")
        q ctx).cited_docs = ["doc_a.pdf", "doc_b.pdf"]) ∧
    (∀ t : String, containsSeq citSep.data t.data = false →
      (generate_answer tpl (fun _ => Except.ok t) q ctx).answer = pyStrip t ∧
      (generate_answer tpl (fun _ => Except.ok t) q ctx).cited_docs = []) := by
  refine ⟨?_, ?_⟩
  · rw [generate_answer_ok_reduce tpl q ctx _ hctx]
    exact ⟨rfl, rfl⟩
  · intro t ht
    rw [generate_answer_ok_reduce tpl q ctx t hctx]
    rw [parseSynthesis_no_delim t ht]
    exact ⟨rfl, rfl⟩

/-- Witness for C6 at concrete template, query, context and a concrete
delimiter-free response. -/
theorem citation_parsing_witness :
    ((generate_answer (fun c q => c ++ q)
        (fun _ => Except.ok
          "The capital of France is Paris.\nCitations:\n- doc_a.pdf\n- doc_b.pdf")
        "q" "ctx").answer = "The capital of France is Paris." ∧
     (generate_answer (fun c q => c ++ q)
        (fun _ => Except.ok
          "The capital of France is Paris.\nCitations:\n- doc_a.pdf\n- doc_b.pdf")
        "q" "ctx").cited_docs = ["doc_a.pdf", "doc_b.pdf"]) ∧
    ((generate_answer (fun c q => c ++ q) (fun _ => Except.ok " plain answer ")
        "q" "ctx").answer = pyStrip " plain answer " ∧
     (generate_answer (fun c q => c ++ q) (fun _ => Except.ok " plain answer ")
        "q" "ctx").cited_docs = []) :=
  ⟨(citation_parsing (fun c q => c ++ q) "q" "ctx" (by decide)).1,
   (citation_parsing (fun c q => c ++ q) "q" "ctx" (by decide)).2
     " plain answer " (by decide)⟩

/-- A word produced by whitespace splitting: non-empty and free of
whitespace characters. -/
def cleanWord (w : String) : Prop :=
  w.data ≠ [] ∧ ∀ c ∈ w.data, c.isWhitespace = false

/-- Flushing a non-whitespace accumulator yields clean words. -/
theorem flushAcc_clean (acc : List Char)
    (h : ∀ c ∈ acc, c.isWhitespace = false) :
    ∀ w ∈ flushAcc acc, cleanWord w := by
  intro w hw
  match acc with
  | [] => simp [flushAcc] at hw
  | a :: as =>
    simp only [flushAcc, List.isEmpty_cons, List.mem_singleton, if_neg] at hw
    rw [if_neg (by simp)] at hw
    rcases List.mem_singleton.mp hw with rfl
    refine ⟨by simp, ?_⟩
    intro c hc
    exact h c (List.mem_reverse.mp hc)

/-- Every word produced by the split worker is clean, provided the
accumulator holds only non-whitespace characters. -/
theorem pySplitAux_clean (l : List Char) :
    ∀ acc, (∀ c ∈ acc, c.isWhitespace = false) →
      ∀ w ∈ pySplitAux l acc, cleanWord w := by
  induction l with
  | nil =>
    intro acc h w hw
    rw [pySplitAux] at hw
    exact flushAcc_clean acc h w hw
  | cons c cs ih =>
    intro acc h w hw
    rw [pySplitAux] at hw
    by_cases hc : c.isWhitespace = true
    · rw [if_pos hc] at hw
      rcases List.mem_append.mp hw with h1 | h2
      · exact flushAcc_clean acc h w h1
      · exact ih [] (by simp) w h2
    · rw [if_neg hc] at hw
      refine ih (c :: acc) ?_ w hw
      intro d hd
      rcases List.mem_cons.mp hd with rfl | hd'
      · exact Bool.eq_false_iff.mpr hc
      · exact h d hd'

/-- Every word of `pyWords s` is clean. -/
theorem pyWords_clean (s : String) : ∀ w ∈ pyWords s, cleanWord w :=
  pySplitAux_clean s.data [] (by simp)

/-- The split worker consumes a whitespace-free prefix into the
accumulator. -/
theorem pySplitAux_append_noWs (w : List Char)
    (hw : ∀ c ∈ w, c.isWhitespace = false) (rest : List Char) :
    ∀ acc, pySplitAux (w ++ rest) acc = pySplitAux rest (w.reverse ++ acc) := by
  induction w with
  | nil => intro acc; simp
  | cons c cs ih =>
    intro acc
    have hc : c.isWhitespace = false := hw c (List.mem_cons_self c cs)
    rw [List.cons_append, pySplitAux, if_neg (by simp [hc])]
    rw [ih (fun d hd => hw d (List.mem_cons_of_mem c hd)) (c :: acc)]
    congr 1
    simp

/-- Flushing a non-empty accumulator yields exactly one word. -/
theorem flushAcc_of_ne (acc : List Char) (h : acc ≠ []) :
    flushAcc acc = [⟨acc.reverse⟩] := by
  match acc with
  | a :: as => rfl

/-- Splitting inverts joining on clean words: `' '.join(ws).split() == ws`. -/
theorem pyWords_join (ws : List String) (h : ∀ w ∈ ws, cleanWord w) :
    pyWords (joinWords ws) = ws := by
  induction ws with
  | nil => rfl
  | cons w ws ih =>
    have hw := h w (List.mem_cons_self w ws)
    cases ws with
    | nil =>
      show pySplitAux (joinWordsData [w]) [] = [w]
      rw [joinWordsData]
      rw [show w.data = w.data ++ ([] : List Char) by simp]
      rw [pySplitAux_append_noWs w.data hw.2 [] []]
      rw [pySplitAux]
      rw [flushAcc_of_ne _ (by simp [hw.1])]
      simp
    | cons w' ws' =>
      show pySplitAux (joinWordsData (w :: w' :: ws')) [] = w :: w' :: ws'
      rw [show joinWordsData (w :: w' :: ws')
            = w.data ++ ' ' :: joinWordsData (w' :: ws') from rfl]
      rw [pySplitAux_append_noWs w.data hw.2 _ []]
      rw [pySplitAux, if_pos (by decide)]
      rw [flushAcc_of_ne _ (by simp [hw.1])]
      have ihtail := ih (fun x hx => h x (List.mem_cons_of_mem w hx))
      rw [show pySplitAux (joinWordsData (w' :: ws')) [] = pyWords (joinWords (w' :: ws')) from rfl]
      rw [ihtail]
      simp

/-- Every chunk emitted by the greedy packing loop has word count at
most `maxWords`, provided the bound is positive, pending words are clean
and the current accumulator is strictly below the bound. -/
theorem greedyPackAux_wc_le (maxWords : Nat) (hmax : 0 < maxWords) :
    ∀ (ws cur : List String), (∀ w ∈ ws, cleanWord w) →
      (∀ w ∈ cur, cleanWord w) → cur.length < maxWords →
      ∀ c ∈ greedyPackAux maxWords ws cur, countWords c ≤ maxWords := by
  intro ws
  induction ws with
  | nil =>
    intro cur hws hcur hlen c hc
    rw [greedyPackAux] at hc
    by_cases hemp : cur.isEmpty = true
    · rw [if_pos hemp] at hc
      simp at hc
    · rw [if_neg hemp] at hc
      rcases List.mem_singleton.mp hc with rfl
      rw [countWords, pyWords_join _ (fun w hw => hcur w (List.mem_reverse.mp hw))]
      simpa using Nat.le_of_lt hlen
  | cons w ws ih =>
    intro cur hws hcur hlen c hc
    simp only [greedyPackAux] at hc
    have hwclean : cleanWord w := hws w (List.mem_cons_self w ws)
    have hwstail : ∀ x ∈ ws, cleanWord x :=
      fun x hx => hws x (List.mem_cons_of_mem w hx)
    have hcurclean : ∀ x ∈ w :: cur, cleanWord x := by
      intro x hx
      rcases List.mem_cons.mp hx with rfl | hx'
      · exact hwclean
      · exact hcur x hx'
    by_cases hflush : maxWords ≤ (w :: cur).length
    · rw [if_pos hflush] at hc
      rcases List.mem_cons.mp hc with rfl | hc'
      · rw [countWords,
          pyWords_join _ (fun x hx => hcurclean x (List.mem_reverse.mp hx))]
        simpa using Nat.succ_le_of_lt hlen
      · exact ih [] hwstail (by simp) hmax c hc'
    · rw [if_neg hflush] at hc
      exact ih (w :: cur) hwstail hcurclean (Nat.lt_of_not_le hflush) c hc

/-- No chunk produced by split_large_chunk exceeds the word bound
(positive bound). -/
theorem split_large_chunk_wc_le (text : String) (maxWords : Nat)
    (hmax : 0 < maxWords) :
    ∀ c ∈ split_large_chunk text maxWords, countWords c ≤ maxWords := by
  intro c hc
  simp only [split_large_chunk] at hc
  by_cases hle : (pyWords text).length ≤ maxWords
  · rw [if_pos hle] at hc
    rcases List.mem_singleton.mp hc with rfl
    exact hle
  · rw [if_neg hle] at hc
    exact greedyPackAux_wc_le maxWords hmax (pyWords text) []
      (pyWords_clean text) (by simp) hmax c hc

/-- A text within the word bound is returned whole by split_large_chunk. -/
theorem split_large_chunk_small (text : String) (maxWords : Nat)
    (hle : countWords text ≤ maxWords) :
    split_large_chunk text maxWords = [text] := by
  simp only [split_large_chunk]
  exact if_pos hle

/-- With the contextual header disabled, the stored text of every chunk
emitted for one element is one of the element's sub-chunks. -/
theorem processSubChunks_text_mem (cfg : Config) (u : String → String → String)
    (m : String → String) (src heading : String) (page : Option Nat)
    (hp : cfg.addSourceHeader = false) :
    ∀ (subs : List String) (idx : Nat) (c : Chunk),
      c ∈ (processSubChunks cfg u m src heading page subs idx).1 →
      c.text ∈ subs := by
  intro subs
  induction subs with
  | nil => intro idx c hc; simp [processSubChunks] at hc
  | cons sub rest ih =>
    intro idx c hc
    simp only [processSubChunks, hp, Bool.false_eq_true, if_false] at hc
    rcases List.mem_cons.mp hc with rfl | hc'
    · exact List.mem_cons_self _ _
    · exact List.mem_cons_of_mem sub (ih (idx + 1) c hc')

/-- True when a text-bearing element's stripped text is within the word
bound (trivially true for headers and non-text elements). -/
def elemWithinMax (maxWords : Nat) : DocElement → Bool
  | DocElement.textItem t _ => countWords (pyStrip t) ≤ maxWords
  | DocElement.listItem t _ => countWords (pyStrip t) ≤ maxWords
  | _ => true

/-- Word-count bounds for the chunks of a single text-bearing element:
the maximum always holds (positive bound, header disabled); the minimum
holds whenever the element itself is within the maximum, because then no
splitting occurs and the minimum was enforced before splitting. -/
theorem chunkTextElement_wc (cfg : Config) (u : String → String → String)
    (m : String → String) (src heading : String) (page : Option Nat)
    (t : String) (idx : Nat) (hp : cfg.addSourceHeader = false)
    (hmax : 0 < cfg.maxChunkWords) :
    (∀ c ∈ (chunkTextElement cfg u m src heading page t idx).1,
       countWords c.text ≤ cfg.maxChunkWords) ∧
    (countWords (pyStrip t) ≤ cfg.maxChunkWords →
      ∀ c ∈ (chunkTextElement cfg u m src heading page t idx).1,
        cfg.minChunkWords ≤ countWords c.text) := by
  simp only [chunkTextElement]
  by_cases hskip : pyStrip t = "" ∨ countWords (pyStrip t) < cfg.minChunkWords
  · rw [if_pos hskip]
    exact ⟨fun c hc => absurd hc (by simp), fun _ c hc => absurd hc (by simp)⟩
  · rw [if_neg hskip]
    constructor
    · intro c hc
      have htext := processSubChunks_text_mem cfg u m src heading page hp _ idx c hc
      exact split_large_chunk_wc_le _ _ hmax _ htext
    · intro hsmall c hc
      rw [split_large_chunk_small _ _ hsmall] at hc
      have htext := processSubChunks_text_mem cfg u m src heading page hp _ idx c hc
      have hct : c.text = pyStrip t := List.mem_singleton.mp htext
      rw [hct]
      exact Nat.le_of_not_lt (not_or.mp hskip).2

/-- Word-count bounds along the element loop: the maximum bound holds
for every emitted chunk; the minimum holds whenever every element of the
stream is within the maximum (so no element gets split). -/
theorem chunksFromElems_wc (cfg : Config) (u : String → String → String)
    (m : String → String) (src : String) (hp : cfg.addSourceHeader = false)
    (hmax : 0 < cfg.maxChunkWords) :
    ∀ (elems : List DocElement) (heading : String) (idx : Nat),
      (∀ c ∈ chunksFromElems cfg u m src elems heading idx,
         countWords c.text ≤ cfg.maxChunkWords) ∧
      ((∀ e ∈ elems, elemWithinMax cfg.maxChunkWords e = true) →
        ∀ c ∈ chunksFromElems cfg u m src elems heading idx,
          cfg.minChunkWords ≤ countWords c.text) := by
  intro elems
  induction elems with
  | nil =>
    intro heading idx
    exact ⟨fun c hc => absurd hc (by simp [chunksFromElems]),
           fun _ c hc => absurd hc (by simp [chunksFromElems])⟩
  | cons e rest ih =>
    intro heading idx
    have htail : ∀ (hall : ∀ x ∈ e :: rest, elemWithinMax cfg.maxChunkWords x = true),
        ∀ x ∈ rest, elemWithinMax cfg.maxChunkWords x = true :=
      fun hall x hx => hall x (List.mem_cons_of_mem e hx)
    cases e with
    | sectionHeaderItem t =>
      rw [chunksFromElems]
      exact ⟨(ih (pyStrip t) idx).1,
             fun hall => (ih (pyStrip t) idx).2 (htail hall)⟩
    | otherItem =>
      rw [chunksFromElems]
      exact ⟨(ih heading idx).1, fun hall => (ih heading idx).2 (htail hall)⟩
    | textItem t page =>
      simp only [chunksFromElems]
      have helem := chunkTextElement_wc cfg u m src heading page t idx hp hmax
      constructor
      · intro c hc
        rcases List.mem_append.mp hc with h1 | h2
        · exact helem.1 c h1
        · exact (ih heading _).1 c h2
      · intro hall c hc
        have hhead : countWords (pyStrip t) ≤ cfg.maxChunkWords := by
          have := hall _ (List.mem_cons_self _ rest)
          simpa [elemWithinMax] using this
        rcases List.mem_append.mp hc with h1 | h2
        · exact helem.2 hhead c h1
        · exact (ih heading _).2 (htail hall) c h2
    | listItem t page =>
      simp only [chunksFromElems]
      have helem := chunkTextElement_wc cfg u m src heading page t idx hp hmax
      constructor
      · intro c hc
        rcases List.mem_append.mp hc with h1 | h2
        · exact helem.1 c h1
        · exact (ih heading _).1 c h2
      · intro hall c hc
        have hhead : countWords (pyStrip t) ≤ cfg.maxChunkWords := by
          have := hall _ (List.mem_cons_self _ rest)
          simpa [elemWithinMax] using this
        rcases List.mem_append.mp hc with h1 | h2
        · exact helem.2 hhead c h1
        · exact (ih heading _).2 (htail hall) c h2

/-- C3 counterexample input: an element of 501 one-letter words. -/
def bigText : String := joinWords (List.replicate 501 "w")

/-- C3 counterexample: with the default configuration (maximum 500,
minimum 5), a single 501-word element is split into a 500-word chunk and
a 1-word remainder, so a chunk BELOW the configured minimum word count
IS emitted — the minimum is only enforced on whole elements before
splitting, not on split remainders. -/
theorem chunk_min_bound_fails :
    ¬ (∀ c ∈ create_semantic_chunks_from_docs defaultConfig (fun _ _ => "")
          (fun _ => "") [DocElement.textItem bigText none] "doc.pdf",
        defaultConfig.minChunkWords ≤ countWords c.text) := by
  decide

/-- C3 amended: with the contextual prefix disabled (the default) and a
positive configured maximum, no emitted chunk's word count exceeds the
configured maximum; and chunks below the configured minimum never appear
provided every text element of the stream is within the maximum (for
oversized elements, the split remainder may fall below the minimum, as
the counterexample shows). -/
theorem chunk_size_bounds_amended (cfg : Config)
    (u : String → String → String) (m : String → String)
    (doc : List DocElement) (src : String)
    (hp : cfg.addSourceHeader = false) (hmax : 0 < cfg.maxChunkWords) :
    (∀ c ∈ create_semantic_chunks_from_docs cfg u m doc src,
       countWords c.text ≤ cfg.maxChunkWords) ∧
    ((∀ e ∈ doc, elemWithinMax cfg.maxChunkWords e = true) →
      ∀ c ∈ create_semantic_chunks_from_docs cfg u m doc src,
        cfg.minChunkWords ≤ countWords c.text) :=
  chunksFromElems_wc cfg u m src hp hmax doc "Introduction" 0

/-- Witness for C3 amended at a concrete document of in-bound elements. -/
theorem chunk_size_bounds_amended_witness :
    (∀ c ∈ create_semantic_chunks_from_docs defaultConfig (fun a b => a ++ b)
        (fun t => t) [DocElement.sectionHeaderItem "Intro",
          DocElement.textItem "one two three four five six" none] "d.pdf",
      countWords c.text ≤ defaultConfig.maxChunkWords) ∧
    (∀ c ∈ create_semantic_chunks_from_docs defaultConfig (fun a b => a ++ b)
        (fun t => t) [DocElement.sectionHeaderItem "Intro",
          DocElement.textItem "one two three four five six" none] "d.pdf",
      defaultConfig.minChunkWords ≤ countWords c.text) :=
  ⟨(chunk_size_bounds_amended defaultConfig (fun a b => a ++ b) (fun t => t)
      [DocElement.sectionHeaderItem "Intro",
       DocElement.textItem "one two three four five six" none] "d.pdf"
      rfl (by decide)).1,
   (chunk_size_bounds_amended defaultConfig (fun a b => a ++ b) (fun t => t)
      [DocElement.sectionHeaderItem "Intro",
       DocElement.textItem "one two three four five six" none] "d.pdf"
      rfl (by decide)).2 (by decide)⟩

/-- The ids and the final chunk index produced by the sub-chunk loop do
not depend on the configuration: the id is derived from the hash of the
raw sub-chunk text, and the configuration only influences the stored
text. -/
theorem processSubChunks_id_cfg (cfg₁ cfg₂ : Config)
    (u : String → String → String) (m : String → String)
    (src heading : String) (page : Option Nat) :
    ∀ (subs : List String) (idx : Nat),
      (processSubChunks cfg₁ u m src heading page subs idx).1.map Chunk.id
        = (processSubChunks cfg₂ u m src heading page subs idx).1.map Chunk.id ∧
      (processSubChunks cfg₁ u m src heading page subs idx).2
        = (processSubChunks cfg₂ u m src heading page subs idx).2 := by
  intro subs
  induction subs with
  | nil => intro idx; exact ⟨rfl, rfl⟩
  | cons sub rest ih =>
    intro idx
    simp only [processSubChunks, List.map_cons]
    exact ⟨by rw [(ih (idx + 1)).1], (ih (idx + 1)).2⟩

/-- The ids and final index of one element's chunks agree between two
configurations sharing the same word bounds. -/
theorem chunkTextElement_id_cfg (mx mn : Nat) (b₁ b₂ : Bool)
    (u : String → String → String) (m : String → String)
    (src heading : String) (page : Option Nat) (t : String) (idx : Nat) :
    (chunkTextElement ⟨mx, mn, b₁⟩ u m src heading page t idx).1.map Chunk.id
      = (chunkTextElement ⟨mx, mn, b₂⟩ u m src heading page t idx).1.map Chunk.id ∧
    (chunkTextElement ⟨mx, mn, b₁⟩ u m src heading page t idx).2
      = (chunkTextElement ⟨mx, mn, b₂⟩ u m src heading page t idx).2 := by
  simp only [chunkTextElement]
  by_cases hskip : pyStrip t = "" ∨ countWords (pyStrip t) < mn
  · rw [if_pos hskip, if_pos hskip]
    exact ⟨rfl, rfl⟩
  · rw [if_neg hskip, if_neg hskip]
    exact processSubChunks_id_cfg ⟨mx, mn, b₁⟩ ⟨mx, mn, b₂⟩ u m src heading page
      (split_large_chunk (pyStrip t) mx) idx

/-- The chunk-id sequence of the element loop agrees between two
configurations sharing the same word bounds. -/
theorem chunksFromElems_id_cfg (mx mn : Nat) (b₁ b₂ : Bool)
    (u : String → String → String) (m : String → String) (src : String) :
    ∀ (elems : List DocElement) (heading : String) (idx : Nat),
      (chunksFromElems ⟨mx, mn, b₁⟩ u m src elems heading idx).map Chunk.id
        = (chunksFromElems ⟨mx, mn, b₂⟩ u m src elems heading idx).map Chunk.id := by
  intro elems
  induction elems with
  | nil => intro heading idx; rfl
  | cons e rest ih =>
    intro heading idx
    cases e with
    | sectionHeaderItem t => rw [chunksFromElems, chunksFromElems]; exact ih _ idx
    | otherItem => rw [chunksFromElems, chunksFromElems]; exact ih heading idx
    | textItem t page =>
      simp only [chunksFromElems, List.map_append]
      have h := chunkTextElement_id_cfg mx mn b₁ b₂ u m src heading page t idx
      rw [h.1, h.2, ih heading _]
    | listItem t page =>
      simp only [chunksFromElems, List.map_append]
      have h := chunkTextElement_id_cfg mx mn b₁ b₂ u m src heading page t idx
      rw [h.1, h.2, ih heading _]

/-- C10: the sequence of chunk identifiers produced by
create_semantic_chunks_from_docs is identical whether the contextual
prefix flag is True or False: each id is derived from the hash of the
raw sub-chunk text, never from the stored (possibly prefixed) text. -/
theorem chunk_ids_independent_of_context_flag (mx mn : Nat)
    (u : String → String → String) (m : String → String)
    (doc : List DocElement) (src : String) :
    (create_semantic_chunks_from_docs ⟨mx, mn, true⟩ u m doc src).map Chunk.id
      = (create_semantic_chunks_from_docs ⟨mx, mn, false⟩ u m doc src).map Chunk.id :=
  chunksFromElems_id_cfg mx mn true false u m src doc "Introduction" 0
